import Mathlib

/-!
Verification of the estuary-rpc streaming transport core.

The definitions below are a shallow embedding of the TypeScript sources:
  * the WebSocket frame codec (`wsDataFrame.ts`: `findPayloadLen`,
    `parseDataFrame`, `sendDataFrame`, `sendPongFrame`, ...),
  * the upgrade handshake (`ws.ts`: `upgradeConnection`),
  * the per-connection reassembler (`ws.ts`: the `socket.on("data")`
    handler inside `wsEndpoint`),
  * the Stream / Duplex observable-channel layer (`stream.ts`).

Byte buffers (`Buffer` / `Uint8Array`) are modelled as `List Nat` whose
elements are byte values; machine-integer behaviour is made explicit
where it matters.  JavaScript runtime errors (RangeError from Buffer
reads, thrown exceptions) are modelled with `Except`.
-/

namespace Estuary

/-! ## Buffer primitives (Node `Buffer` / `Uint8Array`)

`bufGet data i` models `data[i]` in a context where the result is fed to a
JavaScript bitwise operator: an out-of-range read yields `undefined`, and
`ToInt32 undefined = 0`, so the default is `0`.
-/

def bufGet (data : List Nat) (i : Nat) : Nat := data.getD i 0

/-- Big-endian value of the `n` bytes starting at index `off`. -/
def beVal (data : List Nat) (off n : Nat) : Nat :=
  (List.range n).foldl (fun acc i => 256 * acc + bufGet data (off + i)) 0

/-- `Buffer.readUInt16BE(off)`: big-endian 16-bit read; Node throws a
`RangeError` unless `off + 2 <= data.length`. -/
def readUInt16BE (data : List Nat) (off : Nat) : Except String Nat :=
  if off + 2 ≤ data.length then .ok (beVal data off 2)
  else .error "RangeError"

/-- `Buffer.readBigUInt64BE(off)`: big-endian 64-bit read; Node throws a
`RangeError` unless `off + 8 <= data.length`. -/
def readBigUInt64BE (data : List Nat) (off : Nat) : Except String Nat :=
  if off + 8 ≤ data.length then .ok (beVal data off 8)
  else .error "RangeError"

/-- `Number.MAX_SAFE_INTEGER = 2^53 - 1`. -/
def maxSafeInteger : Nat := 2 ^ 53 - 1

/-- `TypedArray.prototype.subarray(a, b)`: indices are clamped to the
buffer, so the result is the elements from `a` (inclusive) to `b`
(exclusive) that actually exist. -/
def subarray (data : List Nat) (a b : Nat) : List Nat :=
  (data.drop a).take (b - a)

/-- `new Uint8Array(n)`: zero-initialised array of length `n`. -/
def uint8ArrayNew (n : Nat) : List Nat := List.replicate n 0

/-- `arr.set(src, off)` for `Uint8Array`: overwrite `src.length` elements
starting at `off`.  (TypedArray.set throws a RangeError when the source
does not fit; every call site below stays in range, where this equation
is the JS behaviour.) -/
def uint8ArraySet (arr src : List Nat) (off : Nat) : List Nat :=
  arr.take off ++ src ++ arr.drop (off + src.length)

/-! ## Frame codec (`wsDataFrame.ts`)

`WsOpCode` is a numeric enum: CONTINUATION=0, TEXT=1, BINARY=2,
CONNECTION_CLOSE=8, PING=9, PONG=10, UNDEFINED=0xff.  We keep opcodes as
the raw numerals the TypeScript enum compiles to. -/

def OP_TEXT : Nat := 1
def OP_BINARY : Nat := 2
def OP_CLOSE : Nat := 8
def OP_PING : Nat := 9
def OP_PONG : Nat := 10
def OP_UNDEFINED : Nat := 0xff

/-- The numeric keys of the compiled `WsOpCode` enum object, i.e. the
values `v` for which `v in WsOpCode` is true. -/
def wsOpCodeValues : List Nat := [0, 1, 2, 8, 9, 10, 0xff]

/-- `DataFrame`: the input of `sendDataFrame` (`hasMask` is never read by
the encoder and is omitted). -/
structure DataFrame where
  fin : Bool
  opCode : Nat
  payload : List Nat
deriving DecidableEq

/-- `findPayloadLen(data, offset)`: returns `[payloadLen, payloadWidth]`.
A 7-bit value 0-125 is the literal length (width 1); value 126 reads the
next 2 bytes big-endian (width 2); value 127 reads the next 8 bytes as a
big-endian 64-bit value, throws when it exceeds `Number.MAX_SAFE_INTEGER`
(width 4). -/
def findPayloadLen (data : List Nat) (offset : Nat) : Except String (Nat × Nat) :=
  let first := bufGet data offset &&& 0x7f
  if first = 126 then
    (readUInt16BE data (offset + 1)).map (fun v => (v, 2))
  else if first = 127 then
    match readBigUInt64BE data (offset + 1) with
    | .error e => .error e
    | .ok val =>
      if val > maxSafeInteger then .error "Cant handle that kind of payload"
      else .ok (val, 4)
  else .ok (first, 1)

/-- The record returned by `parseDataFrame`. -/
structure ParsedFrame where
  fin : Bool
  opCode : Nat
  hasMask : Bool
  payloadLen : Nat
  mask : Option (List Nat)
  payload : List Nat
deriving DecidableEq

/-- Payload recovery: `Uint8Array.from(raw, (maskedByte, index) =>
maskedByte ^ mask[index % 4])` when a mask is present, the plain bytes
otherwise.  (An out-of-range mask read is `undefined`, which XORs as 0.) -/
def unmaskPayload (raw : List Nat) (mask : Option (List Nat)) : List Nat :=
  match mask with
  | some m => raw.enum.map (fun p => p.2 ^^^ m.getD (p.1 % 4) 0)
  | none => raw

/-- `parseDataFrame(data)`: byte 0 carries `fin` (bit 7) and the opcode
(bits 0-3, mapped to UNDEFINED when not a key of the enum); byte 1
carries the mask bit (bit 7) and the 7-bit length field; after the length
field come the optional 4-byte mask and the payload, which is unmasked by
XOR-ing with `mask[index % 4]`. -/
def parseDataFrame (data : List Nat) : Except String ParsedFrame :=
  let b0 := bufGet data 0
  let fin : Bool := ((b0 >>> 7) &&& 1) = 1
  let opCodeInt := b0 &&& 0xf
  let opCode := if opCodeInt ∈ wsOpCodeValues then opCodeInt else OP_UNDEFINED
  let b1 := bufGet data 1
  let hasMask : Bool := ((b1 >>> 7) &&& 1) = 1
  match findPayloadLen data 1 with
  | .error e => .error e
  | .ok (payloadLen, payloadWidth) =>
    let offset := 1 + payloadWidth
    let mask : Option (List Nat) :=
      if hasMask then some (subarray data offset (offset + 4)) else none
    let offset := offset + (if hasMask then 4 else 0)
    let payload := unmaskPayload (subarray data offset (offset + payloadLen)) mask
    .ok ⟨fin, opCode, hasMask, payloadLen, mask, payload⟩

/-- The number of bytes the parser advances past byte 0 for the length
field: 1 for a literal 7-bit length, 2 for the 126 marker, 4 for the 127
marker (`payloadWidth` in `findPayloadLen`). -/
def lenWidth (data : List Nat) : Nat :=
  if bufGet data 1 &&& 0x7f = 126 then 2
  else if bufGet data 1 &&& 0x7f = 127 then 4
  else 1

/-- The length bytes computed by `sendDataFrame`: `payload.length < 126`
gives the literal byte; `< 65536` gives `[126, len >> 8, len & 0xff]`;
otherwise `[127, len >> 24, (len >> 16) & 0xff, (len >> 8) & 0xff]`. -/
def sendSizeBytes (len : Nat) : List Nat :=
  if len < 126 then [len]
  else if len < 65536 then [126, len >>> 8, len &&& 0xff]
  else [127, len >>> 24, (len >>> 16) &&& 0xff, (len >>> 8) &&& 0xff]

/-- `sendDataFrame(socket, df)`: allocates a `Uint8Array` of size
`1 + sizeBytes.length + payload.length`, stores
`(Number(fin) << 7) | opCode` at index 0, the size bytes at index 1 and
the payload after them, and writes the array to the socket.  This
function returns the bytes written. -/
def sendDataFrameBytes (df : DataFrame) : List Nat :=
  let sizeBytes := sendSizeBytes df.payload.length
  let out := uint8ArrayNew (1 + sizeBytes.length + df.payload.length)
  let out := uint8ArraySet out [((if df.fin then 1 else 0) <<< 7) ||| df.opCode] 0
  let out := uint8ArraySet out sizeBytes 1
  let out := uint8ArraySet out df.payload (sizeBytes.length + 1)
  out

/-- `sendPongFrame(socket, ping)`: the PONG message is the PING message
with a PONG opcode (`{...ping, opCode: WsOpCode.PONG}`). -/
def sendPongFrameBytes (ping : ParsedFrame) : List Nat :=
  sendDataFrameBytes ⟨ping.fin, OP_PONG, ping.payload⟩

/-- `sendCloseFrame(socket)` with the default empty payload. -/
def sendCloseFrameBytes : List Nat :=
  sendDataFrameBytes ⟨true, OP_CLOSE, []⟩

/-! ## Claim-specified codec variants (for comparison with the code)

These two definitions follow the words of the specification claims, not
the source; they exist only to be compared against `parseDataFrame` and
`sendDataFrameBytes`. -/

/-- Decoder written from the words of claim C2: values 0-125 of the 7-bit
field are the literal length, 126 means the length is the next 2 bytes
big-endian, 127 means the length is the next 4 bytes big-endian, and the
mask (if present) and payload are located immediately after the
`1 + 1 + length-extension-bytes` header bytes. -/
def parseDataFrameClaim (data : List Nat) : Except String ParsedFrame :=
  let b0 := bufGet data 0
  let fin : Bool := ((b0 >>> 7) &&& 1) = 1
  let opCodeInt := b0 &&& 0xf
  let opCode := if opCodeInt ∈ wsOpCodeValues then opCodeInt else OP_UNDEFINED
  let b1 := bufGet data 1
  let hasMask : Bool := ((b1 >>> 7) &&& 1) = 1
  let len7 := b1 &&& 0x7f
  let payloadLen :=
    if len7 = 126 then beVal data 2 2
    else if len7 = 127 then beVal data 2 4
    else len7
  let ext := if len7 = 126 then 2 else if len7 = 127 then 4 else 0
  let headerEnd := 1 + 1 + ext
  let mask : Option (List Nat) :=
    if hasMask then some (subarray data headerEnd (headerEnd + 4)) else none
  let start := headerEnd + (if hasMask then 4 else 0)
  let payload := unmaskPayload (subarray data start (start + payloadLen)) mask
  .ok ⟨fin, opCode, hasMask, payloadLen, mask, payload⟩

/-- Length bytes written from the words of claim C3: payloads shorter
than 126 bytes as the literal length byte, shorter than 65536 as marker
126 followed by 2 big-endian length bytes, all larger payloads as marker
127 followed by 4 big-endian length bytes. -/
def sendSizeBytesClaim (len : Nat) : List Nat :=
  if len < 126 then [len]
  else if len < 65536 then [126, (len >>> 8) &&& 0xff, len &&& 0xff]
  else [127, (len >>> 24) &&& 0xff, (len >>> 16) &&& 0xff, (len >>> 8) &&& 0xff,
        len &&& 0xff]

/-- Encoder written from the words of claim C3: first byte
`(fin<<7)|opcode`, then the three-tier length encoding, then the payload. -/
def sendDataFrameClaimBytes (df : DataFrame) : List Nat :=
  (((if df.fin then 1 else 0) <<< 7) ||| df.opCode) ::
    (sendSizeBytesClaim df.payload.length ++ df.payload)

/-! ## Upgrade handshake (`ws.ts`, `upgradeConnection`)

`upgradeConnection` writes one string to the socket:
`["HTTP/1.1 101 Switching Protocols", "Upgrade: websocket",
"Sec-WebSocket-Accept: <base64(sha1(key + GUID))>", "Connection: Upgrade",
"\r\n"].join("\r\n")`.  The hash and encoding come from the platform
(`crypto.createHash("sha1")`, `.digest("base64")`); they are embedded
below from their standard definitions (FIPS 180 SHA-1, RFC 4648 base64),
operating on the UTF-8 bytes of the input string (the inputs used here
are ASCII). -/

def rotl32 (x n : Nat) : Nat := ((x <<< n) ||| (x >>> (32 - n))) % 4294967296

def sha1F (t b c d : Nat) : Nat :=
  if t < 20 then (b &&& c) ||| ((b ^^^ 0xffffffff) &&& d)
  else if t < 40 then b ^^^ c ^^^ d
  else if t < 60 then (b &&& c) ||| (b &&& d) ||| (c &&& d)
  else b ^^^ c ^^^ d

def sha1K (t : Nat) : Nat :=
  if t < 20 then 0x5a827999
  else if t < 40 then 0x6ed9eba1
  else if t < 60 then 0x8f1bbcdc
  else 0xca62c1d6

/-- The `n` big-endian bytes of `v`. -/
def natToBE (n v : Nat) : List Nat :=
  (List.range n).map (fun i => (v >>> (8 * (n - 1 - i))) &&& 0xff)

/-- SHA-1 message padding: `0x80`, zeros to 56 mod 64, 8-byte big-endian
bit length. -/
def sha1Pad (msg : List Nat) : List Nat :=
  msg ++ [0x80] ++ List.replicate ((64 + 56 - ((msg.length + 1) % 64)) % 64) 0
    ++ natToBE 8 (8 * msg.length)

/-- Split into 64-byte blocks.  The fuel argument (always sufficient at
`bs.length + 1`, since every step consumes 64 bytes) only serves to make
the recursion structural. -/
def chunks64Aux : Nat → List Nat → List (List Nat)
  | 0, _ => []
  | fuel + 1, bs => if bs = [] then [] else bs.take 64 :: chunks64Aux fuel (bs.drop 64)

def chunks64 (bs : List Nat) : List (List Nat) := chunks64Aux (bs.length + 1) bs

/-- The 16 initial 32-bit words of a 64-byte block. -/
def sha1Words16 (block : List Nat) : List Nat :=
  (List.range 16).map (fun i => beVal block (4 * i) 4)

/-- One extension step: append
`rotl1 (w[t-3] xor w[t-8] xor w[t-14] xor w[t-16])`. -/
def sha1ExtendStep (ws : List Nat) : List Nat :=
  ws ++ [rotl32 ((ws.getD (ws.length - 3) 0) ^^^ (ws.getD (ws.length - 8) 0)
    ^^^ (ws.getD (ws.length - 14) 0) ^^^ (ws.getD (ws.length - 16) 0)) 1]

/-- The 80-word message schedule. -/
def sha1Schedule (w16 : List Nat) : List Nat :=
  (List.range 64).foldl (fun ws _ => sha1ExtendStep ws) w16

def sha1Round (w : List Nat) (st : Nat × Nat × Nat × Nat × Nat) (t : Nat) :
    Nat × Nat × Nat × Nat × Nat :=
  let (a, b, c, d, e) := st
  ((rotl32 a 5 + sha1F t b c d + e + sha1K t + w.getD t 0) % 4294967296,
    a, rotl32 b 30, c, d)

def sha1Compress (hs : Nat × Nat × Nat × Nat × Nat) (block : List Nat) :
    Nat × Nat × Nat × Nat × Nat :=
  let w := sha1Schedule (sha1Words16 block)
  let (h0, h1, h2, h3, h4) := hs
  let (a, b, c, d, e) := (List.range 80).foldl (sha1Round w) (h0, h1, h2, h3, h4)
  ((h0 + a) % 4294967296, (h1 + b) % 4294967296, (h2 + c) % 4294967296,
    (h3 + d) % 4294967296, (h4 + e) % 4294967296)

/-- SHA-1 digest (20 bytes) of a byte sequence. -/
def sha1 (msg : List Nat) : List Nat :=
  let (h0, h1, h2, h3, h4) := (chunks64 (sha1Pad msg)).foldl sha1Compress
    (0x67452301, 0xefcdab89, 0x98badcfe, 0x10325476, 0xc3d2e1f0)
  natToBE 4 h0 ++ natToBE 4 h1 ++ natToBE 4 h2 ++ natToBE 4 h3 ++ natToBE 4 h4

def base64Chars : List Char :=
  "ABCDEFGHIJKLMNOPQRSTUVWXYZabcdefghijklmnopqrstuvwxyz0123456789+/".toList

def base64Char (n : Nat) : Char := base64Chars.getD n (Char.ofNat 65)

/-- RFC 4648 base64 of a byte sequence, with `=` padding. -/
def base64EncodeChars : List Nat → List Char
  | [] => []
  | [b1] =>
    [base64Char (b1 >>> 2), base64Char ((b1 &&& 3) <<< 4),
      Char.ofNat 61, Char.ofNat 61]
  | [b1, b2] =>
    [base64Char (b1 >>> 2), base64Char (((b1 &&& 3) <<< 4) ||| (b2 >>> 4)),
      base64Char ((b2 &&& 15) <<< 2), Char.ofNat 61]
  | b1 :: b2 :: b3 :: rest =>
    base64Char (b1 >>> 2) :: base64Char (((b1 &&& 3) <<< 4) ||| (b2 >>> 4)) ::
      base64Char (((b2 &&& 15) <<< 2) ||| (b3 >>> 6)) :: base64Char (b3 &&& 63) ::
        base64EncodeChars rest

def base64Encode (bs : List Nat) : String := String.mk (base64EncodeChars bs)

/-- The UTF-8 bytes of a string; all strings hashed by the handshake are
ASCII, where this is the codepoint list. -/
def strBytes (s : String) : List Nat := s.data.map Char.toNat

def wsGuid : String := "258EAFA5-E914-47DA-95CA-C5AB0DC85B11"

/-- The `Sec-WebSocket-Accept` value:
`base64(sha1(clientKey + "258EAFA5-E914-47DA-95CA-C5AB0DC85B11"))`. -/
def acceptKey (key : String) : String := base64Encode (sha1 (strBytes (key ++ wsGuid)))

def crlf : String := String.mk [Char.ofNat 13, Char.ofNat 10]

/-- The full response string `upgradeConnection` writes to the socket:
the five lines joined with CRLF (the last array element is itself a CRLF,
so the response ends with a blank line). -/
def upgradeResponseString (key : String) : String :=
  "HTTP/1.1 101 Switching Protocols" ++ crlf ++
    "Upgrade: websocket" ++ crlf ++
    ("Sec-WebSocket-Accept: " ++ acceptKey key) ++ crlf ++
    "Connection: Upgrade" ++ crlf ++
    crlf

/-! ## Connection reassembler (`ws.ts`, the `socket.on("data")` handler)

Per-connection mutable state of `wsEndpoint`: the text accumulator
`strBuffer` (modelled as the UTF-8 bytes the `TextDecoder` consumed), the
binary write offset `bufOffset`, and the growable binary `buffer`
(initially `new Uint8Array(2048)`).

`handleFrame` is the body of the `"data"` callback applied to an already
parsed frame.  The application decoder (`meta.transport.decode.req` for
an UNKNOWN transport, `JSON.parse` for the default JSON transport - both
invoked inside the same try/catch) is the parameter `decodeReq`; a
throwing decoder is an `.error` result.  `binDecode` is the binary
decoder, present exactly when the transport is UNKNOWN and binary.
Effects are returned explicitly: frames written to the socket
(`outbound`), values written to the Duplex inbound stream via
`client.write` (`writes`), `console.error` calls (`logs`), and whether
`socket.end()` was called (`socketEnded`). -/

structure ReasmState where
  strBuffer : List Nat
  bufOffset : Nat
  buffer : List Nat
deriving DecidableEq

def initialReasmState : ReasmState := ⟨[], 0, List.replicate 2048 0⟩

structure FrameEffects (ρ : Type) where
  state : ReasmState
  outbound : List (List Nat)
  writes : List ρ
  logs : Nat
  socketEnded : Bool
deriving DecidableEq

/-- `let newSize = size; while (needed > newSize) newSize *= 2` - the
fuel argument only serves termination (the JS loop would not terminate
for `size = 0`, which never occurs: the buffer starts at 2048 bytes and
only doubles). -/
def growSize (needed size : Nat) : Nat → Nat
  | 0 => size
  | fuel + 1 => if needed > size then growSize needed (size * 2) fuel else size

def handleFrame {ρ : Type} (decodeReq : List Nat → Except Unit ρ)
    (binDecode : Option (List Nat → Except Unit ρ))
    (st : ReasmState) (pf : ParsedFrame) : FrameEffects ρ :=
  if pf.opCode = OP_PING then
    ⟨st, [sendPongFrameBytes pf], [], 0, false⟩
  else if pf.opCode = OP_CLOSE then
    ⟨st, [], [], 0, true⟩
  else if pf.opCode = OP_TEXT then
    let acc := st.strBuffer ++ pf.payload
    if pf.fin then
      match decodeReq acc with
      | .ok v => ⟨{ st with strBuffer := [] }, [], [v], 0, false⟩
      | .error _ => ⟨{ st with strBuffer := [] }, [], [], 1, false⟩
    else ⟨{ st with strBuffer := acc }, [], [], 0, false⟩
  else if pf.opCode = OP_BINARY then
    let buffer :=
      if pf.payloadLen + st.bufOffset > st.buffer.length then
        let newSize := growSize (pf.payloadLen + st.bufOffset)
          (st.buffer.length * 2) (pf.payloadLen + st.bufOffset)
        st.buffer ++ List.replicate (newSize - st.buffer.length) 0
      else st.buffer
    let buffer := uint8ArraySet buffer pf.payload st.bufOffset
    if pf.fin then
      match binDecode with
      | some dec =>
        match dec buffer with
        | .ok v => ⟨⟨st.strBuffer, 0, buffer⟩, [], [v], 0, false⟩
        | .error _ => ⟨⟨st.strBuffer, 0, buffer⟩, [], [], 1, false⟩
      | none => ⟨⟨st.strBuffer, 0, buffer⟩, [], [], 0, false⟩
    else ⟨⟨st.strBuffer, st.bufOffset + pf.payloadLen, buffer⟩, [], [], 0, false⟩
  else ⟨st, [], [], 0, false⟩

/-! A model of the platform `JSON.parse` restricted to JSON string
literals over ASCII bytes - the only use the verified scenarios make of
the default decoder.  A leading quote, body characters with the standard
single-character escapes, a closing quote, and no trailing input. -/

def jsonEscapeChar (b : Nat) : Option Char :=
  if b = 0x22 then some (Char.ofNat 0x22)
  else if b = 0x5c then some (Char.ofNat 0x5c)
  else if b = 0x2f then some (Char.ofNat 0x2f)
  else if b = 98 then some (Char.ofNat 8)
  else if b = 102 then some (Char.ofNat 12)
  else if b = 110 then some (Char.ofNat 10)
  else if b = 114 then some (Char.ofNat 13)
  else if b = 116 then some (Char.ofNat 9)
  else none

def jsonStrGo : List Nat → List Char → Except Unit String
  | [], _ => .error ()
  | b :: rest, acc =>
    if b = 0x22 then
      if rest.isEmpty then .ok (String.mk acc.reverse) else .error ()
    else if b = 0x5c then
      match rest with
      | [] => .error ()
      | e :: r =>
        match jsonEscapeChar e with
        | some c => jsonStrGo r (c :: acc)
        | none => .error ()
    else if b < 0x20 ∨ 0x80 ≤ b then .error ()
    else jsonStrGo rest (Char.ofNat b :: acc)

def jsonParseString (bs : List Nat) : Except Unit String :=
  match bs with
  | 0x22 :: rest => jsonStrGo rest []
  | _ => .error ()

/-! ## Stream / Duplex (`stream.ts`)

A `Stream<T>` owns `listeners : Array<StreamListener<T>>`; `write`,
`error` and `close` iterate over the array in order and invoke the
matching optional callback of each listener; `addListener` pushes;
`removeListener` filters with `l != listener`, i.e. removes, by
JavaScript reference equality, every occurrence of the given listener
object.  We model an object reference as a `Nat` identity.

A user-supplied listener is inert data: its callbacks only observe.  `UL`
records a listener object identity and which of the three optional
callbacks are present; invoking a callback is modelled as emitting a
trace entry `(id, event)`. -/

structure UL where
  id : Nat
  hasMsg : Bool
  hasErr : Bool
  hasClose : Bool
deriving DecidableEq

inductive Ev (α : Type) where
  | msg (a : α)
  | err (e : Nat)
  | close
deriving DecidableEq

/-- The entries a user listener produces for one event: one entry when
the matching callback is present, none otherwise (`l.onMessage &&
l.onMessage(t)`, `l.onError && l.onError(err)`, `l.onClose?.()`). -/
def ulDeliver {α : Type} (l : UL) (e : Ev α) : List (Nat × Ev α) :=
  match e with
  | .msg a => if l.hasMsg then [(l.id, Ev.msg a)] else []
  | .err n => if l.hasErr then [(l.id, Ev.err n)] else []
  | .close => if l.hasClose then [(l.id, Ev.close)] else []

/-- Synchronous fan-out of one event over user listeners, in
registration order. -/
def fanout {α : Type} (ls : List UL) (e : Ev α) : List (Nat × Ev α) :=
  ls.flatMap (fun l => ulDeliver l e)

/-! ### The `mapOut` / `mapIn` wiring (claim C5)

`mapOut` creates a fresh stream and registers on the source stream the
listener `{ onMessage: (t) => stream.write(fn(t)), onError: stream.error,
onClose: stream.close }`.  `onMessage` is an arrow function and closes
over `stream`; `onError` and `onClose` are the extracted prototype
methods `Stream.prototype.error` / `Stream.prototype.close`, stored
without a bound `this`.  When the source stream fans out an error or a
close, it invokes `l.onError(err)` / `l.onClose()`: the receiver of that
call is the listener object `l` itself, so inside the method
`this.listeners` is `undefined` and `this.listeners.forEach` throws a
TypeError, which propagates out of the fan-out loop.  `mapIn` stores
`this.error` / `this.close` of the source stream on the fresh stream and
has the same behaviour in the other direction.

The model runs one event on a source stream whose listener list may
contain user listeners and the forwarding listener, with the mapped
stream holding user listeners; the Bool result records whether a
TypeError was thrown (aborting the fan-out). -/

inductive SrcL (α : Type) where
  | user (u : UL)
  | fwdOut
deriving DecidableEq

/-- A trace entry: `here` = a listener of the stream that received the
event, `there` = a listener of the other stream of the mapped pair. -/
inductive TraceEntry (α β : Type) where
  | here (id : Nat) (e : Ev α)
  | there (id : Nat) (e : Ev β)
deriving DecidableEq

def runMapOutListener {α β : Type} (fn : α → β) (mapped : List UL)
    (l : SrcL α) (e : Ev α) : List (TraceEntry α β) × Bool :=
  match l with
  | .user u => ((ulDeliver u e).map (fun p => TraceEntry.here p.1 p.2), false)
  | .fwdOut =>
    match e with
    | .msg a =>
      ((fanout mapped (Ev.msg (fn a))).map (fun p => TraceEntry.there p.1 p.2),
        false)
    | .err _ => ([], true)
    | .close => ([], true)

/-- `source.write/error/close` after `mapOut`: fold over the source
listeners in order, stopping when a callback throws. -/
def runMapOutEvent {α β : Type} (fn : α → β) (src : List (SrcL α))
    (mapped : List UL) (e : Ev α) : List (TraceEntry α β) × Bool :=
  match src with
  | [] => ([], false)
  | l :: rest =>
    let r := runMapOutListener fn mapped l e
    if r.2 then (r.1, true)
    else
      let r2 := runMapOutEvent fn rest mapped e
      (r.1 ++ r2.1, r2.2)

inductive MapL (β : Type) where
  | fwdIn
  | user (u : UL)
deriving DecidableEq

def runMapInListener {α β : Type} (fn : β → α) (src : List UL)
    (l : MapL β) (e : Ev β) : List (TraceEntry β α) × Bool :=
  match l with
  | .user u => ((ulDeliver u e).map (fun p => TraceEntry.here p.1 p.2), false)
  | .fwdIn =>
    match e with
    | .msg b =>
      ((fanout src (Ev.msg (fn b))).map (fun p => TraceEntry.there p.1 p.2),
        false)
    | .err _ => ([], true)
    | .close => ([], true)

/-- `mapped.write/error/close` for the stream returned by `mapIn` (its
listener list starts with the forwarding listener). -/
def runMapInEvent {α β : Type} (fn : β → α) (src : List UL)
    (mapped : List (MapL β)) (e : Ev β) : List (TraceEntry β α) × Bool :=
  match mapped with
  | [] => ([], false)
  | l :: rest =>
    let r := runMapInListener fn src l e
    if r.2 then (r.1, true)
    else
      let r2 := runMapInEvent fn src rest e
      (r.1 ++ r2.1, r2.2)

/-! ### Listener registration identity (claim C10)

For the registration claim only the object identities in the listener
array matter, so the array is a `List Nat` of references. -/

/-- `addListener`: `this.listeners.push(listener)`. -/
def addListener (ls : List Nat) (l : Nat) : List Nat := ls ++ [l]

/-- `removeListener`: `this.listeners = this.listeners.filter((l) => l !=
listener)` - removal of every occurrence, by reference. -/
def removeListener (ls : List Nat) (l : Nat) : List Nat :=
  ls.filter (fun x => x ≠ l)

/-- `on(eventType, fn)`: wraps `fn` in a freshly allocated listener
object (`{onMessage: fn}` and the like) and pushes it; the wrapper
reference is not returned to the caller. -/
def onRegister (ls : List Nat) (fresh : Nat) : List Nat := addListener ls fresh

/-! ### Duplex views and sealing (claim C6)

A `Duplex` owns `toServer`/`toClient` streams and two view objects; the
`server` view writes to `toClient` and observes `toServer`, the `client`
view symmetrically.  `closeServer()`/`closeClient()` overwrite the view
object with `CLOSED_IN_STREAM`/`CLOSED_OUT_STREAM`, whose every method is
`CLOSED_FN` and throws `Error("Closed Out Stream")`; nothing ever assigns
a live view back.  The model keeps the two listener arrays and one sealed
flag per view.

Stream listener arrays here hold user listeners and the forwarding
listeners appended by `mapOut` (`DL.fwdMapOut sid` stands for the
listener wired to the fresh mapped stream `sid`; deliveries into that
stream are recorded as `.fwd` entries, and its error/close forwarding
throws as analysed for claim C5). -/

inductive DL where
  | user (u : UL)
  | fwdMapOut (sid : Nat)
deriving DecidableEq

inductive DEntry (μ : Type) where
  | user (id : Nat) (e : Ev μ)
  | fwd (sid : Nat) (e : Ev μ)
deriving DecidableEq

def dlDeliver {μ : Type} (l : DL) (e : Ev μ) : List (DEntry μ) × Bool :=
  match l with
  | .user u => ((ulDeliver u e).map (fun p => DEntry.user p.1 p.2), false)
  | .fwdMapOut sid =>
    match e with
    | .msg a => ([DEntry.fwd sid (Ev.msg a)], false)
    | .err _ => ([], true)
    | .close => ([], true)

def dlFanout {μ : Type} (ls : List DL) (e : Ev μ) : List (DEntry μ) × Bool :=
  match ls with
  | [] => ([], false)
  | l :: rest =>
    let r := dlDeliver l e
    if r.2 then (r.1, true)
    else
      let r2 := dlFanout rest e
      (r.1 ++ r2.1, r2.2)

/-- Remove, by reference identity, every occurrence of the user listener
object `u` (a forwarding listener allocated by `mapOut` is never
reference-equal to an object the caller holds). -/
def dlRemove (ls : List DL) (u : UL) : List DL :=
  ls.filter (fun l => match l with
    | .user u2 => u2.id ≠ u.id
    | .fwdMapOut _ => true)

inductive EvK where
  | kMsg
  | kErr
  | kClose
deriving DecidableEq

/-- The wrapper object `on` allocates: a fresh listener with exactly one
callback present. -/
def mkUL (k : EvK) (fresh : Nat) : UL :=
  match k with
  | .kMsg => ⟨fresh, true, false, false⟩
  | .kErr => ⟨fresh, false, true, false⟩
  | .kClose => ⟨fresh, false, false, true⟩

structure DuplexSt where
  toServer : List DL
  toClient : List DL
  serverSealed : Bool
  clientSealed : Bool
deriving DecidableEq

/-- The eight operations a `StreamHandler` view exposes; `μ` is the type
the view writes. -/
inductive ViewOp (μ : Type) where
  | write (m : μ)
  | error (e : Nat)
  | close
  | addListener (u : UL)
  | removeListener (u : UL)
  | on (k : EvK) (fresh : Nat)
  | mapIn
  | mapOut (fresh : Nat)
deriving DecidableEq

/-- Apply a view operation given the observed stream's listeners (where
`addListener`/`removeListener`/`on` register and `mapIn` wires a fresh
stream without touching this one) and the target stream's listeners
(where `write`/`error`/`close` fan out and `mapOut` registers its
forwarding listener).  Returns the updated lists, the trace, and whether
a callback threw. -/
def applyViewOp {μ : Type} (observed target : List DL) (op : ViewOp μ) :
    List DL × List DL × List (DEntry μ) × Bool :=
  match op with
  | .write m => (observed, target, dlFanout target (Ev.msg m))
  | .error e => (observed, target, dlFanout target (Ev.err e))
  | .close => (observed, target, dlFanout target Ev.close)
  | .addListener u => (observed ++ [DL.user u], target, [], false)
  | .removeListener u => (dlRemove observed u, target, [], false)
  | .on k fresh => (observed ++ [DL.user (mkUL k fresh)], target, [], false)
  | .mapIn => (observed, target, [], false)
  | .mapOut fresh => (observed, target ++ [DL.fwdMapOut fresh], [], false)

/-- An operation through `duplex.server`: throws the closed error when
the view has been replaced by the sealed object, else acts on `toServer`
(observed) and `toClient` (target). -/
def serverViewOp {μ : Type} (st : DuplexSt) (op : ViewOp μ) :
    Except Unit (DuplexSt × List (DEntry μ) × Bool) :=
  if st.serverSealed then .error ()
  else
    let r := applyViewOp st.toServer st.toClient op
    .ok ({ st with toServer := r.1, toClient := r.2.1 }, r.2.2)

/-- An operation through `duplex.client`: symmetric to `serverViewOp`. -/
def clientViewOp {μ : Type} (st : DuplexSt) (op : ViewOp μ) :
    Except Unit (DuplexSt × List (DEntry μ) × Bool) :=
  if st.clientSealed then .error ()
  else
    let r := applyViewOp st.toClient st.toServer op
    .ok ({ st with toClient := r.1, toServer := r.2.1 }, r.2.2)

/-- `closeServer()`: `this.server = {...CLOSED_IN_STREAM, ...CLOSED_OUT_STREAM}`. -/
def closeServer (st : DuplexSt) : DuplexSt := { st with serverSealed := true }

/-- `closeClient()`. -/
def closeClient (st : DuplexSt) : DuplexSt := { st with clientSealed := true }

/-- Any operation on a `Duplex` (a thrown closed error leaves the state
unchanged). -/
inductive DuplexOp (μ : Type) where
  | srv (op : ViewOp μ)
  | cli (op : ViewOp μ)
  | sealServer
  | sealClient
deriving DecidableEq

def duplexStep {μ : Type} (st : DuplexSt) (op : DuplexOp μ) : DuplexSt :=
  match op with
  | .srv o =>
    match serverViewOp st o with
    | .ok r => r.1
    | .error _ => st
  | .cli o =>
    match clientViewOp st o with
    | .ok r => r.1
    | .error _ => st
  | .sealServer => closeServer st
  | .sealClient => closeClient st

deriving instance DecidableEq for Except

/-! # Theorems -/

/-! ## Frame codec lemmas -/

theorem uint8_assemble (b : Nat) (s p : List Nat) :
    uint8ArraySet (uint8ArraySet (uint8ArraySet
        (uint8ArrayNew (1 + s.length + p.length)) [b] 0) s 1)
      p (s.length + 1) = b :: (s ++ p) := by
  unfold uint8ArraySet uint8ArrayNew
  simp only [List.take_zero, List.nil_append, List.length_cons, List.length_nil,
    List.singleton_append, List.drop_replicate, Nat.zero_add]
  rw [show 1 + s.length + p.length - 1 = s.length + p.length by omega]
  rw [Nat.add_comm 1 s.length, List.drop_succ_cons, List.drop_replicate]
  rw [show s.length + p.length - s.length = p.length by omega]
  rw [show List.take 1 (b :: List.replicate (s.length + p.length) 0) = [b] from rfl]
  simp only [List.singleton_append, List.cons_append, List.nil_append]
  rw [List.take_succ_cons, List.take_left]
  rw [show s.length + 1 + p.length = (s.length + p.length) + 1 by omega,
    List.drop_succ_cons]
  rw [List.drop_append p.length, List.drop_replicate]
  simp

/-- The three `Uint8Array.set` calls of `sendDataFrame` assemble header
byte, size bytes and payload contiguously. -/
theorem sendDataFrameBytes_eq (df : DataFrame) :
    sendDataFrameBytes df =
      (((if df.fin then 1 else 0) <<< 7) ||| df.opCode) ::
        (sendSizeBytes df.payload.length ++ df.payload) := by
  unfold sendDataFrameBytes
  exact uint8_assemble _ _ _

theorem bufGet_append (data extra : List Nat) (i : Nat) (h : i < data.length) :
    bufGet (data ++ extra) i = bufGet data i := by
  unfold bufGet
  exact List.getD_append data extra 0 i h

theorem beVal_append (data extra : List Nat) (off : Nat) :
    ∀ n, off + n ≤ data.length → beVal (data ++ extra) off n = beVal data off n := by
  intro n
  induction n with
  | zero => intro _; rfl
  | succ m ih =>
    intro h
    unfold beVal at *
    rw [List.range_succ, List.foldl_append, List.foldl_append]
    rw [ih (by omega)]
    simp only [List.foldl_cons, List.foldl_nil]
    rw [bufGet_append data extra (off + m) (by omega)]

theorem subarray_append (data extra : List Nat) (a b : Nat) (h : b ≤ data.length) :
    subarray (data ++ extra) a b = subarray data a b := by
  unfold subarray
  by_cases ha : a ≤ data.length
  · rw [List.drop_append_of_le_length ha]
    exact List.take_append_of_le_length (by simp [List.length_drop]; omega)
  · have hb : b - a = 0 := by omega
    simp [hb]

theorem readUInt16BE_append (data extra : List Nat) (off : Nat)
    (h : off + 2 ≤ data.length) :
    readUInt16BE (data ++ extra) off = readUInt16BE data off := by
  unfold readUInt16BE
  rw [if_pos h, if_pos (by simp; omega)]
  rw [beVal_append data extra off 2 h]

theorem readBigUInt64BE_append (data extra : List Nat) (off : Nat)
    (h : off + 8 ≤ data.length) :
    readBigUInt64BE (data ++ extra) off = readBigUInt64BE data off := by
  unfold readBigUInt64BE
  rw [if_pos h, if_pos (by simp; omega)]
  rw [beVal_append data extra off 8 h]

/-- What a successful `findPayloadLen` run says about the length field,
the advance width and the buffer, by tier of the 7-bit field. -/
theorem findPayloadLen_spec (data : List Nat) (len w : Nat)
    (h : findPayloadLen data 1 = .ok (len, w)) :
    (bufGet data 1 &&& 0x7f = 126 →
      len = beVal data 2 2 ∧ w = 2 ∧ 4 ≤ data.length) ∧
    (bufGet data 1 &&& 0x7f = 127 →
      len = beVal data 2 8 ∧ w = 4 ∧ 10 ≤ data.length ∧ len ≤ maxSafeInteger) ∧
    (bufGet data 1 &&& 0x7f ≠ 126 → bufGet data 1 &&& 0x7f ≠ 127 →
      len = bufGet data 1 &&& 0x7f ∧ w = 1) := by
  unfold findPayloadLen readUInt16BE readBigUInt64BE at h
  refine ⟨?_, ?_, ?_⟩
  · intro h126
    rw [if_pos h126] at h
    by_cases hl : 1 + 1 + 2 ≤ data.length
    · rw [if_pos hl] at h
      simp only [Except.map] at h
      injection h with h2
      injection h2 with ha hb
      exact ⟨ha.symm, hb.symm, by omega⟩
    · rw [if_neg hl] at h
      simp [Except.map] at h
  · intro h127
    rw [if_neg (by omega), if_pos h127] at h
    by_cases hl : 1 + 1 + 8 ≤ data.length
    · rw [if_pos hl] at h
      have h9 : (if beVal data 2 8 > maxSafeInteger then
          (Except.error "Cant handle that kind of payload" : Except String (Nat × Nat))
          else .ok (beVal data 2 8, 4)) = .ok (len, w) := h
      by_cases hv : beVal data 2 8 > maxSafeInteger
      · rw [if_pos hv] at h9; exact absurd h9 (by simp)
      · rw [if_neg hv] at h9
        injection h9 with h2
        injection h2 with ha hb
        exact ⟨ha.symm, hb.symm, by omega, by omega⟩
    · rw [if_neg hl] at h
      simp at h
  · intro h126 h127
    rw [if_neg h126, if_neg h127] at h
    injection h with h2
    injection h2 with ha hb
    exact ⟨ha.symm, hb.symm⟩

theorem findPayloadLen_append (data extra : List Nat) (len w : Nat)
    (hlen : 2 ≤ data.length) (h : findPayloadLen data 1 = .ok (len, w)) :
    findPayloadLen (data ++ extra) 1 = .ok (len, w) := by
  have hs := findPayloadLen_spec data len w h
  unfold findPayloadLen at h ⊢
  rw [bufGet_append data extra 1 (by omega)]
  by_cases h126 : bufGet data 1 &&& 0x7f = 126
  · rw [if_pos h126] at h ⊢
    rw [readUInt16BE_append data extra (1 + 1) (by have := (hs.1 h126).2.2; omega)]
    exact h
  · by_cases h127 : bufGet data 1 &&& 0x7f = 127
    · rw [if_neg h126, if_pos h127] at h ⊢
      rw [readBigUInt64BE_append data extra (1 + 1)
        (by have := (hs.2.1 h127).2.2.1; omega)]
      exact h
    · rw [if_neg h126, if_neg h127] at h ⊢
      exact h

/-- Dissection of a successful parse into its components. -/
theorem parseDataFrame_ok (data : List Nat) (pf : ParsedFrame)
    (h : parseDataFrame data = .ok pf) :
    ∃ w, findPayloadLen data 1 = .ok (pf.payloadLen, w) ∧
      pf.fin = decide (((bufGet data 0 >>> 7) &&& 1) = 1) ∧
      pf.opCode = (if bufGet data 0 &&& 0xf ∈ wsOpCodeValues
        then bufGet data 0 &&& 0xf else OP_UNDEFINED) ∧
      pf.hasMask = decide (((bufGet data 1 >>> 7) &&& 1) = 1) ∧
      pf.mask = (if pf.hasMask then some (subarray data (1 + w) (1 + w + 4))
        else none) ∧
      pf.payload = unmaskPayload
        (subarray data (1 + w + (if pf.hasMask then 4 else 0))
          (1 + w + (if pf.hasMask then 4 else 0) + pf.payloadLen)) pf.mask := by
  unfold parseDataFrame at h
  cases hf : findPayloadLen data 1 with
  | error e => rw [hf] at h; exact absurd h (by simp)
  | ok r =>
    obtain ⟨len, w⟩ := r
    rw [hf] at h
    simp only [] at h
    injection h with h2
    subst h2
    exact ⟨w, rfl, rfl, rfl, rfl, rfl, rfl⟩

theorem parseDataFrame_eq_ok (data : List Nat) (len w : Nat)
    (hf : findPayloadLen data 1 = .ok (len, w)) :
    parseDataFrame data = .ok
      ⟨decide (((bufGet data 0 >>> 7) &&& 1) = 1),
       (if bufGet data 0 &&& 0xf ∈ wsOpCodeValues
          then bufGet data 0 &&& 0xf else OP_UNDEFINED),
       decide (((bufGet data 1 >>> 7) &&& 1) = 1),
       len,
       (if decide (((bufGet data 1 >>> 7) &&& 1) = 1)
          then some (subarray data (1 + w) (1 + w + 4)) else none),
       unmaskPayload
         (subarray data
           (1 + w + (if decide (((bufGet data 1 >>> 7) &&& 1) = 1) then 4 else 0))
           (1 + w + (if decide (((bufGet data 1 >>> 7) &&& 1) = 1) then 4 else 0)
             + len))
         (if decide (((bufGet data 1 >>> 7) &&& 1) = 1)
            then some (subarray data (1 + w) (1 + w + 4)) else none)⟩ := by
  unfold parseDataFrame
  rw [hf]

theorem lenWidth_pos (data : List Nat) : 1 ≤ lenWidth data := by
  unfold lenWidth
  split_ifs <;> omega

/-- Appending bytes after a complete frame does not change the parse:
the decoder consumes no byte beyond the header, mask and payload. -/
theorem parseDataFrame_append (data extra : List Nat) (pf : ParsedFrame)
    (h : parseDataFrame data = .ok pf)
    (hav : 1 + lenWidth data + (if pf.hasMask then 4 else 0) + pf.payloadLen
        ≤ data.length) :
    parseDataFrame (data ++ extra) = .ok pf := by
  obtain ⟨w, hf, hfin, hop, hmb, hmask, hpay⟩ := parseDataFrame_ok data pf h
  have hs := findPayloadLen_spec data pf.payloadLen w hf
  have hlw := lenWidth_pos data
  have hlen2 : 2 ≤ data.length := by omega
  have hw : w = lenWidth data := by
    unfold lenWidth
    by_cases h126 : bufGet data 1 &&& 0x7f = 126
    · rw [if_pos h126]; exact (hs.1 h126).2.1
    · by_cases h127 : bufGet data 1 &&& 0x7f = 127
      · rw [if_neg h126, if_pos h127]; exact (hs.2.1 h127).2.1
      · rw [if_neg h126, if_neg h127]; exact (hs.2.2 h126 h127).2
  rw [← hw] at hav
  rw [hmb] at hav
  have h1 := parseDataFrame_eq_ok data pf.payloadLen w hf
  have h2 := parseDataFrame_eq_ok (data ++ extra) pf.payloadLen w
    (findPayloadLen_append data extra pf.payloadLen w hlen2 hf)
  rw [h2]
  rw [h1] at h
  refine Eq.trans (congrArg Except.ok ?_) h
  rw [bufGet_append data extra 0 (by omega), bufGet_append data extra 1 (by omega)]
  by_cases hc : decide (((bufGet data 1 >>> 7) &&& 1) = 1) = true
  · simp only [hc, eq_self_iff_true, if_true] at hav ⊢
    rw [subarray_append data extra (1 + w) (1 + w + 4) (by omega)]
    rw [subarray_append data extra (1 + w + 4) (1 + w + 4 + pf.payloadLen) (by omega)]
  · have hc2 : decide (((bufGet data 1 >>> 7) &&& 1) = 1) = false := by
      revert hc; cases decide (((bufGet data 1 >>> 7) &&& 1) = 1) <;> simp
    simp only [hc2, Bool.false_eq_true, if_false] at hav ⊢
    rw [subarray_append data extra (1 + w + 0) (1 + w + 0 + pf.payloadLen) (by omega)]

/-! ## Claim C1 -/

set_option maxRecDepth 20000

/-- C1: the claimed round-trip `decode(encode(frame)) = frame` fails at
payload length 200.  The encoder places the payload after the byte
`126` and two big-endian length bytes (offset 4), but the decoder
advances only 2 bytes past byte 1 and reads the payload from offset 3,
so the decoded payload begins with the low length byte `0xC8 = 200` and
drops the final payload byte.  For contrast, the round-trip does hold at
length 10. -/
theorem c1_roundtrip_failure :
    parseDataFrame (sendDataFrameBytes ⟨true, OP_TEXT, List.replicate 200 7⟩) =
      .ok ⟨true, OP_TEXT, false, 200, none, 200 :: List.replicate 199 7⟩ ∧
    (200 :: List.replicate 199 7 ≠ List.replicate 200 7) ∧
    parseDataFrame (sendDataFrameBytes ⟨true, OP_TEXT, List.replicate 10 7⟩) =
      .ok ⟨true, OP_TEXT, false, 10, none, List.replicate 10 7⟩ :=
  ⟨by decide, by decide, by decide⟩

/-! ## Claim C2 -/

/-- C2 counterexample: on the complete frame
`[0x81, 127, 0, 0, 0, 2, 0, 0, 0, 0]` the decoder as the claim describes
it (length = next 4 bytes big-endian = 2, payload after the 6 header
bytes) disagrees with `parseDataFrame`, which reads the next 8 bytes as
the length (8589934592) and takes the payload from offset 5. -/
theorem c2_counterexample :
    parseDataFrame [0x81, 127, 0, 0, 0, 2, 0, 0, 0, 0] ≠
      parseDataFrameClaim [0x81, 127, 0, 0, 0, 2, 0, 0, 0, 0] := by
  decide

/-- C2 (amended): `parseDataFrame` computes the payload length as the
literal 7-bit value (0-125), the next 2 bytes big-endian after marker
126, or the next 8 bytes big-endian after marker 127 (at most
`Number.MAX_SAFE_INTEGER`); the mask (if present) and payload are read
starting at offset `1 + w` where `w` is 1, 2 or 4 by tier (one byte
short of the true header for the 126 and 127 tiers); and when the buffer
holds at least `1 + w + (4 if masked) + payloadLen` bytes the decoder
consumes no bytes beyond them - appending anything leaves the parse
unchanged. -/
theorem c2_decode_length_and_consumption (data : List Nat) (pf : ParsedFrame)
    (h : parseDataFrame data = .ok pf) :
    (bufGet data 1 &&& 0x7f < 126 → pf.payloadLen = bufGet data 1 &&& 0x7f) ∧
    (bufGet data 1 &&& 0x7f = 126 → pf.payloadLen = beVal data 2 2) ∧
    (bufGet data 1 &&& 0x7f = 127 →
      pf.payloadLen = beVal data 2 8 ∧ pf.payloadLen ≤ maxSafeInteger) ∧
    pf.mask = (if pf.hasMask then
      some (subarray data (1 + lenWidth data) (1 + lenWidth data + 4))
      else none) ∧
    pf.payload = unmaskPayload
      (subarray data (1 + lenWidth data + (if pf.hasMask then 4 else 0))
        (1 + lenWidth data + (if pf.hasMask then 4 else 0) + pf.payloadLen))
      pf.mask ∧
    (1 + lenWidth data + (if pf.hasMask then 4 else 0) + pf.payloadLen
        ≤ data.length →
      ∀ extra, parseDataFrame (data ++ extra) = .ok pf) := by
  obtain ⟨w, hf, hfin, hop, hmb, hmask, hpay⟩ := parseDataFrame_ok data pf h
  have hs := findPayloadLen_spec data pf.payloadLen w hf
  have hw : w = lenWidth data := by
    unfold lenWidth
    by_cases h126 : bufGet data 1 &&& 0x7f = 126
    · rw [if_pos h126]; exact (hs.1 h126).2.1
    · by_cases h127 : bufGet data 1 &&& 0x7f = 127
      · rw [if_neg h126, if_pos h127]; exact (hs.2.1 h127).2.1
      · rw [if_neg h126, if_neg h127]; exact (hs.2.2 h126 h127).2
  refine ⟨?_, ?_, ?_, ?_, ?_, ?_⟩
  · intro hlit
    exact (hs.2.2 (by omega) (by omega)).1
  · intro h126
    exact (hs.1 h126).1
  · intro h127
    exact ⟨(hs.2.1 h127).1, (hs.2.1 h127).2.2.2⟩
  · rw [← hw]; exact hmask
  · rw [← hw]; exact hpay
  · intro hav extra
    exact parseDataFrame_append data extra pf h hav

/-- Witness for C2: a concrete complete literal-tier frame, with junk
appended, still parses to the same result. -/
theorem c2_decode_length_and_consumption_witness :
    parseDataFrame ([0x81, 2, 65, 66] ++ [99]) =
      .ok ⟨true, OP_TEXT, false, 2, none, [65, 66]⟩ := by
  have h : parseDataFrame [0x81, 2, 65, 66] =
      .ok ⟨true, OP_TEXT, false, 2, none, [65, 66]⟩ := by decide
  exact (c2_decode_length_and_consumption _ _ h).2.2.2.2.2 (by decide) [99]

/-! ## Claim C3 -/

/-- C3 counterexample: at a payload of 65536 bytes the encoder does not
emit marker 127 followed by 4 big-endian length bytes as claimed - it
emits only 3 (the low byte of the length is dropped), so the whole frame
is one byte shorter than the claim requires. -/
theorem c3_counterexample :
    sendDataFrameBytes ⟨true, OP_TEXT, List.replicate 65536 0⟩ ≠
      sendDataFrameClaimBytes ⟨true, OP_TEXT, List.replicate 65536 0⟩ := by
  intro h
  have hl := congrArg List.length h
  rw [sendDataFrameBytes_eq] at hl
  unfold sendDataFrameClaimBytes at hl
  dsimp only at hl
  rw [List.length_replicate] at hl
  rw [show sendSizeBytes 65536 = [127, 0, 1, 0] from by decide] at hl
  rw [show sendSizeBytesClaim 65536 = [127, 0, 1, 0, 0] from by decide] at hl
  rw [List.length_cons, List.length_cons, List.length_append, List.length_append,
    List.length_replicate] at hl
  have e1 : ([127, 0, 1, 0] : List Nat).length = 4 := rfl
  have e2 : ([127, 0, 1, 0, 0] : List Nat).length = 5 := rfl
  rw [e1, e2] at hl
  omega

/-- C3 (amended): `sendDataFrame` emits `(fin<<7)|opcode`, then the
length bytes - the literal length for payloads shorter than 126 bytes,
marker 126 plus 2 big-endian bytes below 65536, and marker 127 plus only
the top 3 big-endian bytes of the length for larger payloads - then the
payload; the mask bit of the second byte is never set; and the "hi"
frame encodes to exactly `[0x81, 0x02, 0x68, 0x69]`. -/
theorem c3_encode_format :
    (∀ df : DataFrame, sendDataFrameBytes df =
      (((if df.fin then 1 else 0) <<< 7) ||| df.opCode) ::
        (sendSizeBytes df.payload.length ++ df.payload)) ∧
    (∀ len : Nat, 65536 ≤ len →
      sendSizeBytes len = [127, len >>> 24, (len >>> 16) &&& 0xff,
        (len >>> 8) &&& 0xff]) ∧
    (∀ df : DataFrame, (bufGet (sendDataFrameBytes df) 1) >>> 7 = 0) ∧
    sendDataFrameBytes ⟨true, OP_TEXT, [0x68, 0x69]⟩ = [0x81, 0x02, 0x68, 0x69] := by
  refine ⟨sendDataFrameBytes_eq, ?_, ?_, by decide⟩
  · intro len hlen
    unfold sendSizeBytes
    rw [if_neg (by omega), if_neg (by omega)]
  · intro df
    rw [sendDataFrameBytes_eq]
    show (sendSizeBytes df.payload.length ++ df.payload).getD 0 0 >>> 7 = 0
    unfold sendSizeBytes
    split_ifs with hlt hmid
    · simp only [List.cons_append, List.nil_append, List.getD_cons_zero]
      have : df.payload.length >>> 7 = df.payload.length / 128 :=
        Nat.shiftRight_eq_div_pow _ 7
      rw [this]
      omega
    · simp
    · simp

/-- Witness for C3: the 127 tier at length 70000 and the concrete "hi"
frame. -/
theorem c3_encode_format_witness :
    sendSizeBytes 70000 =
      [127, 70000 >>> 24, (70000 >>> 16) &&& 0xff, (70000 >>> 8) &&& 0xff] ∧
    sendDataFrameBytes ⟨true, OP_TEXT, [0x68, 0x69]⟩ = [0x81, 0x02, 0x68, 0x69] :=
  ⟨c3_encode_format.2.1 70000 (by decide), c3_encode_format.2.2.2⟩

/-! ## Claim C4 -/

/-- C4: when the application decoder throws on a completed text message
(`fin` set), the catch block logs once and nothing else happens: no value
is written to the Duplex inbound stream, no frame is written to the
socket, the socket is not ended, and the accumulator is reset - exactly
the state a successful decode leaves behind, so subsequent frames are
processed as if the failure had not happened.  (The `"data"` handler
never invokes `client.error` or `client.close`, so no error event can
reach the Duplex from this path.) -/
theorem c4_decode_failure_swallowed {ρ : Type}
    (decodeReq : List Nat → Except Unit ρ)
    (binDecode : Option (List Nat → Except Unit ρ))
    (st : ReasmState) (pf : ParsedFrame)
    (hop : pf.opCode = OP_TEXT) (hfin : pf.fin = true)
    (herr : decodeReq (st.strBuffer ++ pf.payload) = .error ()) :
    handleFrame decodeReq binDecode st pf =
      ⟨{ st with strBuffer := [] }, [], [], 1, false⟩ ∧
    (∀ (decode2 : List Nat → Except Unit ρ) (v : ρ),
      decode2 (st.strBuffer ++ pf.payload) = .ok v →
      handleFrame decode2 binDecode st pf =
        ⟨{ st with strBuffer := [] }, [], [v], 0, false⟩) := by
  constructor
  · unfold handleFrame
    rw [hop]
    rw [if_neg (by decide), if_neg (by decide), if_pos rfl, hfin, if_pos rfl, herr]
  · intro decode2 v hok
    unfold handleFrame
    rw [hop]
    rw [if_neg (by decide), if_neg (by decide), if_pos rfl, hfin, if_pos rfl, hok]

/-- Witness for C4: the default JSON decoder rejects the non-JSON text
`hi!`; the connection state afterwards equals the post-success state. -/
theorem c4_decode_failure_swallowed_witness :
    handleFrame jsonParseString none initialReasmState
      ⟨true, OP_TEXT, false, 3, none, [104, 105, 33]⟩ =
      ⟨{ initialReasmState with strBuffer := [] }, [], [], 1, false⟩ ∧
    handleFrame (fun _ => .ok "ok") none initialReasmState
      ⟨true, OP_TEXT, false, 3, none, [104, 105, 33]⟩ =
      ⟨{ initialReasmState with strBuffer := [] }, [], ["ok"], 0, false⟩ :=
  ⟨(c4_decode_failure_swallowed jsonParseString none initialReasmState
      ⟨true, OP_TEXT, false, 3, none, [104, 105, 33]⟩ rfl rfl (by decide)).1,
   (c4_decode_failure_swallowed jsonParseString none initialReasmState
      ⟨true, OP_TEXT, false, 3, none, [104, 105, 33]⟩ rfl rfl (by decide)).2
     (fun _ => .ok "ok") "ok" rfl⟩

/-! ## Claim C7 -/

/-- C7: a TEXT frame without `fin` only appends its payload to the text
accumulator (no write, no outbound frame, no log, socket untouched); a
TEXT frame with `fin` decodes the accumulated text plus the final
payload, writes the decoded value exactly once to the Duplex inbound
stream and resets the accumulator; and the concrete fragmented scenario
`{fin:false, TEXT, "\x22he"}` then `{fin:true, TEXT, "llo\x22"}` (with
the default JSON decoding) delivers exactly one message, the string
`hello`. -/
theorem c7_fragmented_text_reassembly {ρ : Type}
    (decodeReq : List Nat → Except Unit ρ)
    (binDecode : Option (List Nat → Except Unit ρ))
    (st : ReasmState) (pf : ParsedFrame)
    (hop : pf.opCode = OP_TEXT) :
    (pf.fin = false → handleFrame decodeReq binDecode st pf =
      ⟨{ st with strBuffer := st.strBuffer ++ pf.payload }, [], [], 0, false⟩) ∧
    (∀ v : ρ, pf.fin = true → decodeReq (st.strBuffer ++ pf.payload) = .ok v →
      handleFrame decodeReq binDecode st pf =
        ⟨{ st with strBuffer := [] }, [], [v], 0, false⟩) ∧
    (let e1 := handleFrame jsonParseString none initialReasmState
        ⟨false, OP_TEXT, false, 3, none, [0x22, 0x68, 0x65]⟩
     let e2 := handleFrame jsonParseString none e1.state
        ⟨true, OP_TEXT, false, 4, none, [0x6c, 0x6c, 0x6f, 0x22]⟩
     e1.writes ++ e2.writes = ["hello"] ∧ e1.outbound = [] ∧ e2.outbound = [] ∧
       e1.state.strBuffer = [0x22, 0x68, 0x65] ∧ e2.state.strBuffer = []) := by
  refine ⟨?_, ?_, ?_⟩
  · intro hfin
    unfold handleFrame
    rw [hop, if_neg (by decide), if_neg (by decide), if_pos rfl, hfin]
    rw [if_neg (by decide)]
  · intro v hfin hok
    unfold handleFrame
    rw [hop, if_neg (by decide), if_neg (by decide), if_pos rfl, hfin, if_pos rfl,
      hok]
  · exact ⟨by decide, by decide, by decide, by decide, by decide⟩

/-- Witness for C7: feeding the first fragment appends its bytes to the
accumulator and delivers nothing. -/
theorem c7_fragmented_text_reassembly_witness :
    handleFrame jsonParseString none initialReasmState
      ⟨false, OP_TEXT, false, 3, none, [0x22, 0x68, 0x65]⟩ =
      ⟨{ initialReasmState with
          strBuffer := initialReasmState.strBuffer ++ [0x22, 0x68, 0x65] },
        [], [], 0, false⟩ :=
  (c7_fragmented_text_reassembly jsonParseString none initialReasmState
    ⟨false, OP_TEXT, false, 3, none, [0x22, 0x68, 0x65]⟩ rfl).1 rfl

/-! ## Claim C8 -/

/-- C8: a PING frame produces exactly one outbound frame - the encoding
of the same frame with a PONG opcode and the PING payload verbatim - and
nothing else: no Duplex write, no log, no socket end, state untouched.
At the concrete frame `{fin:true, PING, [1,2,3]}` the outbound bytes are
exactly the encoding of `{fin:true, PONG, [1,2,3]}`, namely
`[0x8a, 3, 1, 2, 3]`, and zero messages reach the Duplex. -/
theorem c8_ping_autoreply {ρ : Type}
    (decodeReq : List Nat → Except Unit ρ)
    (binDecode : Option (List Nat → Except Unit ρ))
    (st : ReasmState) (pf : ParsedFrame)
    (hping : pf.opCode = OP_PING) :
    handleFrame decodeReq binDecode st pf =
      ⟨st, [sendDataFrameBytes ⟨pf.fin, OP_PONG, pf.payload⟩], [], 0, false⟩ ∧
    (handleFrame jsonParseString none initialReasmState
        ⟨true, OP_PING, false, 3, none, [1, 2, 3]⟩).outbound =
      [[0x8a, 3, 1, 2, 3]] ∧
    (handleFrame jsonParseString none initialReasmState
        ⟨true, OP_PING, false, 3, none, [1, 2, 3]⟩).writes = ([] : List String) := by
  refine ⟨?_, by decide, by decide⟩
  unfold handleFrame
  rw [hping, if_pos rfl]
  rfl

/-- Witness for C8: the `[1,2,3]` PING leaves the state untouched and
emits the PONG encoding. -/
theorem c8_ping_autoreply_witness :
    handleFrame jsonParseString none initialReasmState
      ⟨true, OP_PING, false, 3, none, [1, 2, 3]⟩ =
      ⟨initialReasmState, [sendDataFrameBytes ⟨true, OP_PONG, [1, 2, 3]⟩],
        [], 0, false⟩ :=
  (c8_ping_autoreply jsonParseString none initialReasmState
    ⟨true, OP_PING, false, 3, none, [1, 2, 3]⟩ rfl).1

/-! ## Claim C5 -/

/-- C5: message forwarding through `mapOut` works - `s.write(t)` reaches
the source listener and delivers `fn t` to the mapped stream listener -
but error and close forwarding throw: the stored `stream.error` /
`stream.close` are unbound prototype methods, so when the source fan-out
invokes them through the listener object a TypeError is raised, the
mapped stream listeners receive nothing, and the fan-out aborts.
Symmetrically for `mapIn`: `write` on the returned stream invokes
`s.write (fn t)`, while `error` and `close` on it throw instead of
reaching `s`. -/
theorem c5_map_forwarding_eval {α β : Type} (fn : α → β) (a : α) (n : Nat) :
    (runMapOutEvent fn [SrcL.user ⟨0, true, true, true⟩, SrcL.fwdOut]
        [⟨1, true, true, true⟩] (Ev.msg a) =
      ([TraceEntry.here 0 (Ev.msg a), TraceEntry.there 1 (Ev.msg (fn a))],
        false)) ∧
    (runMapOutEvent fn [SrcL.user ⟨0, true, true, true⟩, SrcL.fwdOut]
        [⟨1, true, true, true⟩] (Ev.err n) =
      ([TraceEntry.here 0 (Ev.err n)], true)) ∧
    (runMapOutEvent fn [SrcL.user ⟨0, true, true, true⟩, SrcL.fwdOut]
        [⟨1, true, true, true⟩] Ev.close =
      ([TraceEntry.here 0 Ev.close], true)) ∧
    (∀ (gn : β → α) (b : β),
      runMapInEvent gn [⟨0, true, true, true⟩] [MapL.fwdIn] (Ev.msg b) =
        ([TraceEntry.there 0 (Ev.msg (gn b))], false) ∧
      runMapInEvent gn [⟨0, true, true, true⟩] [MapL.fwdIn] (Ev.err n) =
        ([], true) ∧
      runMapInEvent gn [⟨0, true, true, true⟩] [MapL.fwdIn] Ev.close =
        ([], true)) :=
  ⟨rfl, rfl, rfl, fun _ _ => ⟨rfl, rfl, rfl⟩⟩

/-! ## Claim C6 -/

theorem duplexStep_serverSealed {μ : Type} (st : DuplexSt) (op : DuplexOp μ)
    (h : st.serverSealed = true) : (duplexStep st op).serverSealed = true := by
  cases op with
  | srv o => simp [duplexStep, serverViewOp, h]
  | cli o =>
    by_cases hc : st.clientSealed = true
    · simp [duplexStep, clientViewOp, hc, h]
    · simp [duplexStep, clientViewOp, hc, h]
  | sealServer => simp [duplexStep, closeServer]
  | sealClient => simp [duplexStep, closeClient, h]

theorem duplexStep_clientSealed {μ : Type} (st : DuplexSt) (op : DuplexOp μ)
    (h : st.clientSealed = true) : (duplexStep st op).clientSealed = true := by
  cases op with
  | cli o => simp [duplexStep, clientViewOp, h]
  | srv o =>
    by_cases hc : st.serverSealed = true
    · simp [duplexStep, serverViewOp, hc, h]
    · simp [duplexStep, serverViewOp, hc, h]
  | sealClient => simp [duplexStep, closeClient]
  | sealServer => simp [duplexStep, closeServer, h]

/-- C6: once a view is sealed, every one of its eight operations throws
the closed error; the opposite view behaves exactly as before sealing
(same result and trace, with only the seal flag carried along in the
resulting state); and no sequence of duplex operations ever clears a
seal flag.  Stated for `closeServer` and symmetrically for
`closeClient`. -/
theorem c6_seal_irreversibility {μ : Type} :
    (∀ (st : DuplexSt) (op : ViewOp μ), st.serverSealed = true →
      serverViewOp st op = .error ()) ∧
    (∀ (st : DuplexSt) (op : ViewOp μ), clientViewOp (closeServer st) op =
      (clientViewOp st op).map (fun r => (closeServer r.1, r.2))) ∧
    (∀ (st : DuplexSt) (ops : List (DuplexOp μ)), st.serverSealed = true →
      (ops.foldl duplexStep st).serverSealed = true) ∧
    (∀ (st : DuplexSt) (op : ViewOp μ), st.clientSealed = true →
      clientViewOp st op = .error ()) ∧
    (∀ (st : DuplexSt) (op : ViewOp μ), serverViewOp (closeClient st) op =
      (serverViewOp st op).map (fun r => (closeClient r.1, r.2))) ∧
    (∀ (st : DuplexSt) (ops : List (DuplexOp μ)), st.clientSealed = true →
      (ops.foldl duplexStep st).clientSealed = true) := by
  refine ⟨?_, ?_, ?_, ?_, ?_, ?_⟩
  · intro st op h
    unfold serverViewOp
    rw [h]
    simp
  · intro st op
    obtain ⟨ts, tc, ss, cs⟩ := st
    cases cs <;> simp [clientViewOp, closeServer, Except.map]
  · intro st ops h
    induction ops generalizing st with
    | nil => simpa using h
    | cons o rest ih =>
      rw [List.foldl_cons]
      exact ih _ (duplexStep_serverSealed st o h)
  · intro st op h
    unfold clientViewOp
    rw [h]
    simp
  · intro st op
    obtain ⟨ts, tc, ss, cs⟩ := st
    cases ss <;> simp [serverViewOp, closeClient, Except.map]
  · intro st ops h
    induction ops generalizing st with
    | nil => simpa using h
    | cons o rest ih =>
      rw [List.foldl_cons]
      exact ih _ (duplexStep_clientSealed st o h)

/-- Witness for C6: after sealing the server view, a server write
throws, a client write still reaches the `toServer` listener, and the
seal survives further operations. -/
theorem c6_seal_irreversibility_witness :
    serverViewOp (closeServer ⟨[], [], false, false⟩) (ViewOp.write (5 : Nat)) =
      .error () ∧
    clientViewOp (closeServer ⟨[DL.user ⟨0, true, true, true⟩], [], false, false⟩)
        (ViewOp.write (7 : Nat)) =
      .ok (⟨[DL.user ⟨0, true, true, true⟩], [], true, false⟩,
        [DEntry.user 0 (Ev.msg 7)], false) ∧
    (([DuplexOp.sealClient, DuplexOp.cli (ViewOp.write 3)] :
        List (DuplexOp Nat)).foldl duplexStep
      (closeServer ⟨[], [], false, false⟩)).serverSealed = true :=
  ⟨c6_seal_irreversibility.1 (closeServer ⟨[], [], false, false⟩) _ rfl,
   (c6_seal_irreversibility.2.1 ⟨[DL.user ⟨0, true, true, true⟩], [], false, false⟩
     (ViewOp.write 7)).trans (by decide),
   c6_seal_irreversibility.2.2.1 (closeServer ⟨[], [], false, false⟩)
     [DuplexOp.sealClient, DuplexOp.cli (ViewOp.write 3)] rfl⟩

/-! ## Claim C9 -/

/-- C9: `upgradeConnection` writes exactly the 101 status line, the
`Upgrade: websocket` header, the `Sec-WebSocket-Accept` header whose
value is `base64(SHA1(key + GUID))`, and `Connection: Upgrade`, each
CRLF-terminated with a final blank line; and the canonical test key
yields the canonical accept value. -/
theorem c9_upgrade_handshake :
    (∀ key : String, upgradeResponseString key =
      "HTTP/1.1 101 Switching Protocols" ++ crlf ++
      "Upgrade: websocket" ++ crlf ++
      "Sec-WebSocket-Accept: " ++ acceptKey key ++ crlf ++
      "Connection: Upgrade" ++ crlf ++ crlf) ∧
    acceptKey "dGhlIHNhbXBsZSBub25jZQ==" = "s3pPLMBiTxaQ9kYGzzhZRbK+xOo=" := by
  constructor
  · intro key
    unfold upgradeResponseString
    simp [String.append_assoc]
  · have h1 : strBytes ("dGhlIHNhbXBsZSBub25jZQ==" ++ wsGuid) =
        [100, 71, 104, 108, 73, 72, 78, 104, 98, 88, 66, 115, 90, 83, 66, 117,
         98, 50, 53, 106, 90, 81, 61, 61, 50, 53, 56, 69, 65, 70, 65, 53, 45,
         69, 57, 49, 52, 45, 52, 55, 68, 65, 45, 57, 53, 67, 65, 45, 67, 53,
         65, 66, 48, 68, 67, 56, 53, 66, 49, 49] := by decide
    have h2 : sha1
        [100, 71, 104, 108, 73, 72, 78, 104, 98, 88, 66, 115, 90, 83, 66, 117,
         98, 50, 53, 106, 90, 81, 61, 61, 50, 53, 56, 69, 65, 70, 65, 53, 45,
         69, 57, 49, 52, 45, 52, 55, 68, 65, 45, 57, 53, 67, 65, 45, 67, 53,
         65, 66, 48, 68, 67, 56, 53, 66, 49, 49] =
        [179, 122, 79, 44, 192, 98, 79, 22, 144, 246, 70, 6, 207, 56, 89, 69,
         178, 190, 196, 234] := by decide
    show base64Encode (sha1 (strBytes ("dGhlIHNhbXBsZSBub25jZQ==" ++ wsGuid))) = _
    rw [h1, h2]
    decide

/-! ## Claim C10 -/

/-- C10: a listener registered through `on` lives in a freshly allocated
wrapper object whose reference the caller never obtains, and
`removeListener` filters by reference, so no sequence of
`removeListener` calls over caller-available references can remove it;
conversely `removeListener` on an object that was pushed (even several
times) by `addListener` removes every occurrence at once. -/
theorem c10_on_listeners_unremovable :
    (∀ (ls avail : List Nat) (w : Nat), w ∉ avail →
      ∀ rs : List Nat, (∀ r ∈ rs, r ∈ avail) →
        w ∈ rs.foldl removeListener (onRegister ls w)) ∧
    (∀ (ls : List Nat) (l : Nat), l ∉ removeListener ls l) ∧
    (∀ (ls : List Nat) (l : Nat),
      removeListener (addListener (addListener ls l) l) l = removeListener ls l) := by
  refine ⟨?_, ?_, ?_⟩
  · intro ls avail w hw rs
    have main : ∀ (rs cur : List Nat), w ∈ cur → (∀ r ∈ rs, r ∈ avail) →
        w ∈ rs.foldl removeListener cur := by
      intro rs
      induction rs with
      | nil => intro cur hcur _; simpa using hcur
      | cons r rest ih =>
        intro cur hcur hall
        rw [List.foldl_cons]
        refine ih _ ?_ (fun x hx => hall x (by simp [hx]))
        unfold removeListener
        rw [List.mem_filter]
        refine ⟨hcur, ?_⟩
        have hr : r ∈ avail := hall r (by simp)
        have hne : w ≠ r := fun he => hw (he ▸ hr)
        simp [hne]
    intro hall
    refine main rs (onRegister ls w) ?_ hall
    unfold onRegister addListener
    simp
  · intro ls l
    unfold removeListener
    intro hmem
    rw [List.mem_filter] at hmem
    simp at hmem
  · intro ls l
    unfold removeListener addListener
    simp

/-- Witness for C10: a wrapper with reference 1 survives removals drawn
from the available reference 0; a double-added listener 3 is fully
removed by one call. -/
theorem c10_on_listeners_unremovable_witness :
    1 ∈ List.foldl removeListener (onRegister [] 1) [0, 0] ∧
    2 ∉ removeListener [2, 2] 2 ∧
    removeListener (addListener (addListener [5] 3) 3) 3 = removeListener [5] 3 :=
  ⟨c10_on_listeners_unremovable.1 [] [0] 1 (by decide) [0, 0] (by decide),
   c10_on_listeners_unremovable.2.1 [2, 2] 2,
   c10_on_listeners_unremovable.2.2 [5] 3⟩

end Estuary
